import Mathlib

/-
Shallow embedding of ThatOneNoah/x11-autoclicker-gui (src/main.rs).

Timing arithmetic (click_thread lines 175-183 and the GUI label at lines
292-299) is modelled over ℚ, standing for exact real arithmetic.  The two
worker loops are modelled as explicit step functions over per-cycle
observations: the X11 display, keysym resolution and the pending-event
queue are abstracted into the observation records, exactly where the Rust
code calls into xlib.
-/

namespace Clicker

/-- The shared `Settings` struct (main.rs lines 19-25). -/
structure Settings where
  cps : ℚ
  duty : ℚ
  button_name : String
  hotkey : String

/-- Digit value of an ASCII digit character, `none` otherwise. -/
def digitVal (c : Char) : Option Nat :=
  if c.isDigit then some (c.toNat - 48) else none

/-- Accumulate decimal digits left to right; fails on a non-digit. -/
def parseDigitsAux : List Char → Nat → Option Nat
  | [], acc => some acc
  | c :: rest, acc =>
    match digitVal c with
    | some d => parseDigitsAux rest (acc * 10 + d)
    | none => none

/-- Upper bound of Rust's u32. -/
def U32_MAX : Nat := 4294967295

/-- Rust's `str::parse::<u32>`: an optional leading plus sign, then a
nonempty run of decimal digits; overflow past u32 is an error (modelled as a
bound check on the final value, observably equivalent to Rust's checked
accumulation). -/
def parseU32 (s : String) : Option Nat :=
  let cs :=
    match s.data with
    | '+' :: rest => rest
    | other => other
  match cs with
  | [] => none
  | _ =>
    match parseDigitsAux cs 0 with
    | some v => if v ≤ U32_MAX then some v else none
    | none => none

/-- Rust's `str::to_lowercase`, restricted to its ASCII behaviour (the
only characters the button grammar distinguishes): lowercase every
character. -/
def toLowerStr (s : String) : String := String.mk (s.data.map Char.toLower)

/-- `parse_button` (main.rs lines 38-50): lowercase the name, map the three
symbolic names to buttons 1..3, otherwise parse as u32; then require the
value to lie in 1..=9. -/
def parse_button (name : String) : Option Nat :=
  let b := toLowerStr name
  let v? : Option Nat :=
    if b = "left" then some 1
    else if b = "middle" then some 2
    else if b = "right" then some 3
    else parseU32 b
  match v? with
  | none => none
  | some v => if 1 ≤ v ∧ v ≤ 9 then some v else none

/-- The cps floor (main.rs line 175): `if s.cps > 0.0 { s.cps } else { 0.1 }`. -/
def effCps (cps : ℚ) : ℚ :=
  if 0 < cps then cps else 1/10

/-- Rust `f64::clamp(lo, hi)`: below `lo` gives `lo`, above `hi` gives `hi`. -/
def clampQ (x lo hi : ℚ) : ℚ := min (max x lo) hi

/-- `duty` fraction (main.rs line 176): `(s.duty / 100.0).clamp(0.0, 1.0)`. -/
def dutyFrac (duty : ℚ) : ℚ := clampQ (duty / 100) 0 1

/-- `period = 1.0 / cps` after the positivity floor (main.rs line 180). -/
def period (cps : ℚ) : ℚ := 1 / effCps cps

/-- `min_press = 0.001` seconds (main.rs line 181). -/
def minPress : ℚ := 1/1000

/-- `on_time = (period * duty).max(min_press).min(period)` (main.rs line 182). -/
def onTime (cps duty : ℚ) : ℚ :=
  min (max (period cps * dutyFrac duty) minPress) (period cps)

/-- `off_time = (period - on_time).max(0.0)` (main.rs line 183). -/
def offTime (cps duty : ℚ) : ℚ :=
  max (period cps - onTime cps duty) 0

/-- GUI live-timing label, `period_ms = 1000.0 / cps` (main.rs line 293);
only shown when `cps > 0.0`. -/
def guiPeriodMs (cps : ℚ) : ℚ := 1000 / cps

/-- GUI `on_ms = (period_ms * (duty / 100.0)).max(1.0_f64.min(period_ms))`
(main.rs line 294). -/
def guiOnMs (cps duty : ℚ) : ℚ :=
  max (guiPeriodMs cps * (duty / 100)) (min 1 (guiPeriodMs cps))

/-- GUI `off_ms = (period_ms - on_ms).max(0.0)` (main.rs line 295). -/
def guiOffMs (cps duty : ℚ) : ℚ :=
  max (guiPeriodMs cps - guiOnMs cps duty) 0

/-- A synthesized pointer-button event: `XTestFakeButtonEvent(dpy, b, True/False, _)`. -/
inductive BtnEvent where
  | press (b : Nat)
  | release (b : Nat)
deriving DecidableEq

/-- One observation of the click-thread loop head (main.rs lines 170-173):
the value the `running` flag showed this cycle and the settings snapshot
taken under the lock.  The list of observations ends when `should_exit`
is first observed true. -/
structure ClickObs where
  running : Bool
  settings : Settings

/-- The click-thread loop body (main.rs lines 170-201), threading
`last_button` (initialised to 1 at line 168) and collecting the emitted
button events.  An active cycle resolves the button with
`parse_button(..).unwrap_or(1)` (line 177), records it in `last_button`
(line 178) and emits a press then a release (lines 186, 191); an idle
cycle only sleeps. -/
def clickLoop : List ClickObs → Nat → List BtnEvent × Nat
  | [], lb => ([], lb)
  | o :: rest, lb =>
    if o.running then
      let b := (parse_button o.settings.button_name).getD 1
      let (evs, lb') := clickLoop rest b
      (BtnEvent.press b :: BtnEvent.release b :: evs, lb')
    else
      clickLoop rest lb

/-- The `last_button` value held when the loop exits. -/
def lastButton (obs : List ClickObs) : Nat := (clickLoop obs 1).2

/-- The full event trace of `click_thread` up to `XCloseDisplay`: the loop
trace followed by the unconditional safety release of `last_button`
(main.rs line 204). -/
def click_thread_events (obs : List ClickObs) : List BtnEvent :=
  (clickLoop obs 1).1 ++ [BtnEvent.release (clickLoop obs 1).2]

/-- The eight lock-modifier mask combinations `MOD_VARIANTS`
(main.rs lines 68-77): `LockMask = 2`, `Mod2Mask = 16`, `Mod5Mask = 128`
and all their unions. -/
def MOD_VARIANTS : List Nat := [0, 2, 16, 128, 18, 130, 144, 146]

/-- A primitive grab-table operation: `XGrabKey` or `XUngrabKey` for one
keycode under one modifier mask. -/
inductive GrabOp where
  | grab (kc m : Nat)
  | ungrab (kc m : Nat)
deriving DecidableEq

/-- Effect of one primitive operation on the set of (keycode, mask) pairs
currently grabbed on the root window. -/
def applyOp (g : Finset (Nat × Nat)) : GrabOp → Finset (Nat × Nat)
  | GrabOp.grab kc m => insert (kc, m) g
  | GrabOp.ungrab kc m => g.erase (kc, m)

/-- Effect of a sequence of primitive operations, first to last. -/
def applyOps (g : Finset (Nat × Nat)) (ops : List GrabOp) : Finset (Nat × Nat) :=
  ops.foldl applyOp g

/-- The grab set held for one keycode: all eight modifier combinations. -/
def grabSet (kc : Nat) : Finset (Nat × Nat) :=
  (MOD_VARIANTS.map fun m => (kc, m)).toFinset

/-- The exact operation sequence the watcher issues on a rebind
(main.rs lines 113-118): first ungrab every modifier combination of the
old keycode, then grab every combination of the new one. -/
def rebindOps (oldKc newKc : Nat) : List GrabOp :=
  MOD_VARIANTS.map (GrabOp.ungrab oldKc) ++ MOD_VARIANTS.map (GrabOp.grab newKc)

/-- One observation of the hotkey-thread loop head (main.rs lines 106-127):
`resolved` is the outcome of `keysym_to_keycode` on this cycle's settings
snapshot (`none` when the keysym or keycode lookup fails), and `event` is
`some kc` when `XPending > 0` and the fetched event is a `KeyPress` with
that keycode (`none` for no pending event or a non-keypress event). -/
structure HotkeyObs where
  resolved : Option Nat
  event : Option Nat

/-- Worker-local state of the hotkey thread: the last grabbed keycode, the
shared `running` flag, and the set of (keycode, mask) grabs held. -/
structure HState where
  lastKeycode : Nat
  running : Bool
  grabs : Finset (Nat × Nat)
deriving DecidableEq

/-- One iteration of the hotkey-thread loop (main.rs lines 106-138):
if the shortcut resolved to a keycode different from `last_keycode`,
run the rebind sequence and record the new keycode (lines 112-119);
then, if a matching key-press event is pending, negate `running`
(lines 126-135). -/
def hotkeyStep (st : HState) (o : HotkeyObs) : HState :=
  let st1 :=
    match o.resolved with
    | some nk =>
      if nk ≠ st.lastKeycode then
        { st with
          lastKeycode := nk
          grabs := applyOps st.grabs (rebindOps st.lastKeycode nk) }
      else st
    | none => st
  match o.event with
  | some kc => if kc = st1.lastKeycode then { st1 with running := !st1.running } else st1
  | none => st1

/-- `hotkey_thread` start-up and loop (main.rs lines 95-139): the initial
resolution of the shortcut uses the `?` operator (line 97), so a failed
initial resolution returns early with an error and the worker exits;
otherwise the initial grab set for the resolved keycode is installed
(lines 98-100) and the loop runs over the given observations.
`init` is the outcome of that first `keysym_to_keycode` call and
`running0` the value of the shared flag at spawn time. -/
def hotkey_thread (init : Option Nat) (running0 : Bool) (obs : List HotkeyObs) :
    Except Unit HState :=
  match init with
  | none => Except.error ()
  | some kc0 =>
    Except.ok (obs.foldl hotkeyStep
      { lastKeycode := kc0, running := running0, grabs := grabSet kc0 })

/-! Helper lemmas about the timing computation. -/

theorem effCps_pos (cps : ℚ) : 0 < effCps cps := by
  unfold effCps
  split_ifs with h
  · exact h
  · norm_num

theorem period_pos (cps : ℚ) : 0 < period cps :=
  div_pos one_pos (effCps_pos cps)

theorem onTime_le_period (cps duty : ℚ) : onTime cps duty ≤ period cps :=
  min_le_right _ _

theorem offTime_eq_sub (cps duty : ℚ) :
    offTime cps duty = period cps - onTime cps duty :=
  max_eq_left (sub_nonneg.mpr (onTime_le_period cps duty))

theorem dutyFrac_nonneg (duty : ℚ) : 0 ≤ dutyFrac duty :=
  le_min (le_max_right _ _) zero_le_one

theorem dutyFrac_le_one (duty : ℚ) : dutyFrac duty ≤ 1 :=
  min_le_right _ _

theorem dutyFrac_of_bounds (duty : ℚ) (h0 : 0 ≤ duty) (h1 : duty ≤ 100) :
    dutyFrac duty = duty / 100 := by
  unfold dutyFrac clampQ
  rw [max_eq_left (by positivity), min_eq_left (by linarith)]

/-- C1 counterexample: at rate 10000 (a rate above 1000 actuations per
second, with duty 50 in [0,100]) the computed on_time is strictly below
the 1 ms minimum press time, because the final `.min(period)` overrides
the `.max(min_press)` floor when the whole period is shorter than 1 ms. -/
theorem onTime_floor_counterexample :
    (0:ℚ) < 10000 ∧ (0:ℚ) ≤ 50 ∧ (50:ℚ) ≤ 100 ∧ onTime 10000 50 < minPress := by
  norm_num [onTime, period, effCps, dutyFrac, clampQ, minPress, min_def, max_def]

/-- C1 (amended): for rate > 0 and duty in [0,100], on_time is at least
min(1 ms, period): whenever the period is at least 1 ms (rate ≤ 1000) the
on_time is at least the 1 ms floor, but when the period is below 1 ms
(rate > 1000) the on_time equals the whole period, which is below 1 ms. -/
theorem onTime_ge_min_press_floor (cps duty : ℚ) (hc : 0 < cps)
    (h0 : 0 ≤ duty) (h1 : duty ≤ 100) :
    min minPress (period cps) ≤ onTime cps duty ∧
    (minPress ≤ period cps → minPress ≤ onTime cps duty) ∧
    (period cps < minPress → onTime cps duty = period cps) := by
  refine ⟨?_, ?_, ?_⟩
  · exact min_le_min (le_max_right _ _) le_rfl
  · intro hmp
    exact le_min (le_max_right _ _) hmp
  · intro hmp
    rw [onTime]
    exact min_eq_right (le_trans (le_of_lt hmp) (le_max_right _ _))

/-- Witness for the amended C1 theorem at rate 10, duty 50. -/
theorem onTime_ge_min_press_floor_witness :
    min minPress (period 10) ≤ onTime 10 50 ∧ minPress ≤ onTime 10 50 := by
  have h := onTime_ge_min_press_floor 10 50 (by norm_num) (by norm_num) (by norm_num)
  exact ⟨h.1, h.2.1 (by norm_num [period, effCps, minPress])⟩

/-- C4 counterexample: at rate 10000 and duty 0.01 the code's on_time is
the full period (0.1 ms), not the 1 ms floor, and its off_time is 0, not
period − 1 ms. -/
theorem click_timing_rate10000_counterexample :
    onTime 10000 (1/100) ≠ minPress ∧
    offTime 10000 (1/100) ≠ period 10000 - minPress := by
  norm_num [onTime, offTime, period, effCps, dutyFrac, clampQ, minPress,
    min_def, max_def]

/-- C4 (amended): at rate 10000 and duty 0.01, the period is 0.1 ms, the
on_time clamps to the full period (0.1 ms, below the 1 ms floor), and the
off_time is 0. -/
theorem click_timing_rate10000 :
    period 10000 = 1/10000 ∧
    onTime 10000 (1/100) = period 10000 ∧
    offTime 10000 (1/100) = 0 := by
  norm_num [onTime, offTime, period, effCps, dutyFrac, clampQ, minPress,
    min_def, max_def]

/-- C5 counterexample: at rate 0.05 (positive but below 0.1) the code uses
the rate unchanged, giving a 20 s period, where the claimed formula
`1 / max(rate, 0.1)` would give 10 s: the guard is `if rate > 0`, not a
0.1 floor applied to every rate at or below 0.1. -/
theorem period_floor_counterexample :
    period (1/20) = 20 ∧ period (1/20) ≠ 1 / max ((1:ℚ)/20) (1/10) := by
  norm_num [period, effCps, max_def]

/-- C5 (amended): the generator computes period = 1 / (rate when rate > 0,
else 0.1): the substituted divisor is always positive, so no division by
zero occurs; every non-positive rate (and only those) is replaced by the
0.1 floor, giving a 10 s period, while every positive rate is used as is. -/
theorem period_no_div_by_zero (cps : ℚ) :
    0 < effCps cps ∧
    period cps = 1 / effCps cps ∧
    (cps ≤ 0 → period cps = 10) ∧
    (0 < cps → period cps = 1 / cps) := by
  refine ⟨effCps_pos cps, rfl, ?_, ?_⟩
  · intro h
    rw [period, effCps, if_neg (not_lt.mpr h)]
    norm_num
  · intro h
    rw [period, effCps, if_pos h]

/-- Witness for the amended C5 theorem at rate 0 and rate 4. -/
theorem period_no_div_by_zero_witness :
    period 0 = 10 ∧ period 4 = 1 / 4 :=
  ⟨(period_no_div_by_zero 0).2.2.1 le_rfl,
   (period_no_div_by_zero 4).2.2.2 (by norm_num)⟩

/-- C6: for rate > 0 and duty in [0,100], on_time + off_time equals the
period exactly, off_time is never negative, and in the clamp cases the
on_time equals the clamp bound exactly: the 1 ms floor when the
duty-derived on-time falls below it (and the floor fits in the period),
and the full period when the period itself is below the floor. -/
theorem onTime_offTime_sum (cps duty : ℚ) (hc : 0 < cps)
    (h0 : 0 ≤ duty) (h1 : duty ≤ 100) :
    onTime cps duty + offTime cps duty = period cps ∧
    0 ≤ offTime cps duty ∧
    (period cps * dutyFrac duty < minPress → minPress ≤ period cps →
      onTime cps duty = minPress) ∧
    (period cps < minPress → onTime cps duty = period cps) := by
  refine ⟨?_, le_max_right _ _, ?_, ?_⟩
  · rw [offTime_eq_sub]
    ring
  · intro hlow hfit
    rw [onTime, max_eq_right (le_of_lt hlow), min_eq_left hfit]
  · intro hmp
    rw [onTime]
    exact min_eq_right (le_trans (le_of_lt hmp) (le_max_right _ _))

/-- Witness for the C6 theorem at rate 10, duty 50. -/
theorem onTime_offTime_sum_witness :
    onTime 10 50 + offTime 10 50 = period 10 ∧ 0 ≤ offTime 10 50 :=
  ⟨(onTime_offTime_sum 10 50 (by norm_num) (by norm_num) (by norm_num)).1,
   (onTime_offTime_sum 10 50 (by norm_num) (by norm_num) (by norm_num)).2.1⟩

/-- Swapping a max-of-min against a min-of-max: for x ≤ p, taking the
larger of x and min(1, p) agrees with capping max(x, 1) at p. -/
theorem max_min_one_comm (x p : ℚ) (h : x ≤ p) :
    max x (min 1 p) = min (max x 1) p := by
  rcases le_total 1 p with hp | hp
  · rw [min_eq_left hp, min_eq_left (max_le h hp)]
  · rw [min_eq_right hp, max_eq_right h,
      min_eq_right (le_trans hp (le_max_right x 1))]

/-- C10: for rate > 0 and duty in [0,100], the GUI label's timing formula
(on = max(period·duty/100, min(1 ms, period)), off = max(period − on, 0),
in milliseconds) computes exactly the click thread's on_time and off_time
(in seconds), scaled by 1000. -/
theorem gui_click_timing_equiv (cps duty : ℚ) (hc : 0 < cps)
    (h0 : 0 ≤ duty) (h1 : duty ≤ 100) :
    guiOnMs cps duty = 1000 * onTime cps duty ∧
    guiOffMs cps duty = 1000 * offTime cps duty := by
  have heff : effCps cps = cps := if_pos hc
  have hP : period cps = 1 / cps := by rw [period, heff]
  have hpm : guiPeriodMs cps = 1000 * period cps := by rw [guiPeriodMs, hP]; ring
  have hdf : dutyFrac duty = duty / 100 := dutyFrac_of_bounds duty h0 h1
  have hppos : 0 < period cps := period_pos cps
  have hx : guiPeriodMs cps * (duty / 100) ≤ guiPeriodMs cps := by
    rw [hpm]
    have hb : duty / 100 ≤ 1 := by linarith
    have hgb : 0 ≤ duty / 100 := by positivity
    nlinarith
  have hOn : guiOnMs cps duty = 1000 * onTime cps duty := by
    rw [guiOnMs, max_min_one_comm _ _ hx, onTime, hdf,
      mul_min_of_nonneg _ _ (by norm_num : (0:ℚ) ≤ 1000),
      mul_max_of_nonneg _ _ (by norm_num : (0:ℚ) ≤ 1000), hpm]
    norm_num [minPress]
    ring_nf
  refine ⟨hOn, ?_⟩
  rw [guiOffMs, hOn, offTime,
    mul_max_of_nonneg _ _ (by norm_num : (0:ℚ) ≤ 1000), hpm, mul_sub, mul_zero]

/-- Witness for the C10 theorem at rate 10, duty 50. -/
theorem gui_click_timing_equiv_witness :
    guiOnMs 10 50 = 1000 * onTime 10 50 ∧
    guiOffMs 10 50 = 1000 * offTime 10 50 :=
  gui_click_timing_equiv 10 50 (by norm_num) (by norm_num) (by norm_num)

/-- C2: for every execution of the click-thread loop, whatever the
interleaving of active and idle cycles observed before `should_exit`
becomes true (including termination before any active cycle), the final
button event emitted before the display connection is closed is a release
of the last-used button. -/
theorem click_thread_final_release (obs : List ClickObs) :
    (click_thread_events obs).getLast? =
      some (BtnEvent.release (lastButton obs)) := by
  unfold click_thread_events lastButton
  exact List.getLast?_concat _

/-- C9: the button selector resolves "left", "middle", "right"
(case-insensitively, via the lowercase pass) to buttons 1, 2, 3; a string
parsing as a decimal integer in 1..9 resolves to that integer; a parsed
integer outside 1..9 fails, as does any string that is neither a name nor
a parsable integer; and on failure the click-thread cycle still runs,
substituting the primary button 1 for both the press and the release. -/
theorem parse_button_spec :
    (∀ s : String, toLowerStr s = "left" → parse_button s = some 1) ∧
    (∀ s : String, toLowerStr s = "middle" → parse_button s = some 2) ∧
    (∀ s : String, toLowerStr s = "right" → parse_button s = some 3) ∧
    (∀ (s : String) (v : Nat), parseU32 (toLowerStr s) = some v → 1 ≤ v → v ≤ 9 →
      parse_button s = some v) ∧
    (∀ (s : String) (v : Nat), parseU32 (toLowerStr s) = some v → ¬(1 ≤ v ∧ v ≤ 9) →
      parse_button s = none) ∧
    (∀ s : String, toLowerStr s ≠ "left" → toLowerStr s ≠ "middle" →
      toLowerStr s ≠ "right" → parseU32 (toLowerStr s) = none →
      parse_button s = none) ∧
    (∀ (o : ClickObs) (rest : List ClickObs) (lb : Nat), o.running = true →
      parse_button o.settings.button_name = none →
      clickLoop (o :: rest) lb =
        (BtnEvent.press 1 :: BtnEvent.release 1 :: (clickLoop rest 1).1,
         (clickLoop rest 1).2)) := by
  refine ⟨?_, ?_, ?_, ?_, ?_, ?_, ?_⟩
  · intro s h
    simp [parse_button, h]
  · intro s h
    simp [parse_button, h]
  · intro s h
    simp [parse_button, h]
  · intro s v hp h1 h9
    have hL : toLowerStr s ≠ "left" := by
      intro he
      rw [he] at hp
      exact Option.noConfusion ((show parseU32 "left" = none from rfl).symm.trans hp)
    have hM : toLowerStr s ≠ "middle" := by
      intro he
      rw [he] at hp
      exact Option.noConfusion ((show parseU32 "middle" = none from rfl).symm.trans hp)
    have hR : toLowerStr s ≠ "right" := by
      intro he
      rw [he] at hp
      exact Option.noConfusion ((show parseU32 "right" = none from rfl).symm.trans hp)
    simp only [parse_button]
    rw [if_neg hL, if_neg hM, if_neg hR, hp]
    simp [h1, h9]
  · intro s v hp hv
    have hL : toLowerStr s ≠ "left" := by
      intro he
      rw [he] at hp
      exact Option.noConfusion ((show parseU32 "left" = none from rfl).symm.trans hp)
    have hM : toLowerStr s ≠ "middle" := by
      intro he
      rw [he] at hp
      exact Option.noConfusion ((show parseU32 "middle" = none from rfl).symm.trans hp)
    have hR : toLowerStr s ≠ "right" := by
      intro he
      rw [he] at hp
      exact Option.noConfusion ((show parseU32 "right" = none from rfl).symm.trans hp)
    simp only [parse_button]
    rw [if_neg hL, if_neg hM, if_neg hR, hp]
    simp [hv]
  · intro s hL hM hR hp
    simp only [parse_button]
    rw [if_neg hL, if_neg hM, if_neg hR, hp]
  · intro o rest lb hr hpb
    simp [clickLoop, hr, hpb]

/-- Witness for the C9 theorem on concrete selector strings and one
concrete failed cycle. -/
theorem parse_button_spec_witness :
    parse_button "LEFT" = some 1 ∧
    parse_button "7" = some 7 ∧
    parse_button "10" = none ∧
    parse_button "foo" = none ∧
    clickLoop [⟨true, ⟨10, 50, "foo", "F6"⟩⟩] 1 =
      ([BtnEvent.press 1, BtnEvent.release 1], 1) :=
  ⟨parse_button_spec.1 "LEFT" rfl,
   parse_button_spec.2.2.2.1 "7" 7 rfl (by norm_num) (by norm_num),
   parse_button_spec.2.2.2.2.1 "10" 10 rfl (by norm_num),
   parse_button_spec.2.2.2.2.2.1 "foo" (by decide) (by decide) (by decide) rfl,
   parse_button_spec.2.2.2.2.2.2 ⟨true, ⟨10, 50, "foo", "F6"⟩⟩ [] 1 rfl rfl⟩

/-- C3 counterexample: when the very first resolution at worker start
fails, the hotkey thread exits with an error instead of retrying — even
with a later poll cycle available in which the shortcut would resolve.
The initial resolution uses the error-propagating operator, so the worker
returns before entering the loop. -/
theorem hotkey_initial_failure_counterexample :
    hotkey_thread none false [{ resolved := some 42, event := none }] =
      Except.error () := rfl

/-- C3 (amended): once the initial resolution has succeeded, the watcher
never exits for any sequence of poll cycles, including cycles in which the
shortcut text fails to resolve; a failed-resolution cycle with no pending
event leaves the watcher's state untouched, and the resolution is simply
attempted again on the next cycle.  A failure of the very first
resolution, however, is fatal: the worker returns an error and exits. -/
theorem hotkey_resolution_failure_recoverable :
    (∀ (kc0 : Nat) (running0 : Bool) (obs : List HotkeyObs),
      ∃ st, hotkey_thread (some kc0) running0 obs = Except.ok st) ∧
    (∀ st : HState, hotkeyStep st { resolved := none, event := none } = st) ∧
    (∀ (running0 : Bool) (obs : List HotkeyObs),
      hotkey_thread none running0 obs = Except.error ()) := by
  refine ⟨?_, ?_, ?_⟩
  · intro kc0 running0 obs
    exact ⟨_, rfl⟩
  · intro st
    rfl
  · intro running0 obs
    rfl

/-- Witness for the amended C3 theorem: one failed-resolution cycle after
a successful start leaves the worker alive, and an initial failure exits. -/
theorem hotkey_resolution_failure_recoverable_witness :
    (∃ st, hotkey_thread (some 42) false [{ resolved := none, event := none }] =
      Except.ok st) ∧
    hotkey_thread none true [] = Except.error () :=
  ⟨hotkey_resolution_failure_recoverable.1 42 false
      [{ resolved := none, event := none }],
   hotkey_resolution_failure_recoverable.2.2 true []⟩

/-- A cycle with no successful resolution preserves the grabbed keycode. -/
theorem hotkeyStep_none_lastKeycode (st : HState) (e : Option Nat) :
    (hotkeyStep st { resolved := none, event := e }).lastKeycode =
      st.lastKeycode := by
  unfold hotkeyStep
  cases e with
  | none => rfl
  | some kc =>
    by_cases h : kc = st.lastKeycode
    · simp [h]
    · simp [h]

/-- A matching key-press on a cycle with no rebind negates `running` and
changes nothing else. -/
theorem hotkeyStep_toggle (st : HState) (kc : Nat) (h : st.lastKeycode = kc) :
    hotkeyStep st { resolved := none, event := some kc } =
      { st with running := !st.running } := by
  unfold hotkeyStep
  simp [h]

/-- C8: processing n consecutive matching shortcut key-presses leaves
`running` at its initial value when n is even and at its negation when n
is odd: each matching press maps the flag to its logical negation. -/
theorem hotkey_toggle_parity (kc : Nat) (st : HState) (hkc : st.lastKeycode = kc)
    (n : Nat) :
    ((fun s => hotkeyStep s { resolved := none, event := some kc })^[n] st).running =
      (if n % 2 = 0 then st.running else !st.running) := by
  induction n with
  | zero => simp
  | succ n ih =>
    have hlast :
        ((fun s => hotkeyStep s { resolved := none, event := some kc })^[n]
          st).lastKeycode = kc := by
      clear ih
      induction n with
      | zero => exact hkc
      | succ m ihm =>
        rw [Function.iterate_succ_apply']
        rw [hotkeyStep_none_lastKeycode]
        exact ihm
    rw [Function.iterate_succ_apply', hotkeyStep_toggle _ kc hlast]
    by_cases hp : n % 2 = 0
    · have hp1 : ¬((n + 1) % 2 = 0) := by omega
      simp only [hp, if_true, hp1, if_false] at ih ⊢
      rw [ih]
    · have hp1 : (n + 1) % 2 = 0 := by omega
      simp only [hp, if_false, hp1, if_true] at ih ⊢
      rw [ih, Bool.not_not]

/-- Witness for the C8 theorem: three matching presses starting from a
stopped state leave `running` true. -/
theorem hotkey_toggle_parity_witness :
    ((fun s => hotkeyStep s { resolved := none, event := some 5 })^[3]
      { lastKeycode := 5, running := false, grabs := ∅ }).running =
      (if 3 % 2 = 0 then false else !false) :=
  hotkey_toggle_parity 5 { lastKeycode := 5, running := false, grabs := ∅ } rfl 3

/-! Helper lemmas about the grab table. -/

theorem applyOps_append (g : Finset (Nat × Nat)) (l1 l2 : List GrabOp) :
    applyOps g (l1 ++ l2) = applyOps (applyOps g l1) l2 :=
  List.foldl_append ..

theorem applyOps_ungrab_subset (kc : Nat) (ms : List Nat) (g : Finset (Nat × Nat)) :
    applyOps g (ms.map (GrabOp.ungrab kc)) ⊆ g := by
  induction ms generalizing g with
  | nil => exact Finset.Subset.refl g
  | cons m ms ih =>
    exact (ih (g.erase (kc, m))).trans (Finset.erase_subset _ _)

theorem grabSet_fst (kc : Nat) (p : Nat × Nat) (h : p ∈ grabSet kc) : p.1 = kc := by
  rcases List.mem_map.mp (List.mem_toFinset.mp h) with ⟨m, _, rfl⟩
  rfl

theorem applyOps_ungrab_clears (kc : Nat) (ms : List Nat) (hnd : ms.Nodup) :
    applyOps ((ms.map fun m => (kc, m)).toFinset) (ms.map (GrabOp.ungrab kc)) = ∅ := by
  induction ms with
  | nil => rfl
  | cons m ms ih =>
    have hnotmem : (kc, m) ∉ (ms.map fun m => (kc, m)).toFinset := by
      intro hmem
      rcases List.mem_map.mp (List.mem_toFinset.mp hmem) with ⟨m', hm', he⟩
      cases he
      exact (List.nodup_cons.mp hnd).1 hm'
    simp only [List.map_cons, List.toFinset_cons, applyOps, List.foldl_cons]
    show applyOps ((insert (kc, m) (ms.map fun m => (kc, m)).toFinset).erase (kc, m))
      (ms.map (GrabOp.ungrab kc)) = ∅
    rw [Finset.erase_insert hnotmem]
    exact ih (List.nodup_cons.mp hnd).2

theorem applyOps_grab_eq (kc : Nat) (ms : List Nat) (g : Finset (Nat × Nat)) :
    applyOps g (ms.map (GrabOp.grab kc)) = g ∪ (ms.map fun m => (kc, m)).toFinset := by
  induction ms generalizing g with
  | nil => simp [applyOps]
  | cons m ms ih =>
    simp only [List.map_cons, List.toFinset_cons, applyOps, List.foldl_cons]
    show applyOps (insert (kc, m) g) (ms.map (GrabOp.grab kc)) = _
    rw [ih, Finset.insert_union, Finset.union_insert]

theorem ungrab_all (kc : Nat) :
    applyOps (grabSet kc) (MOD_VARIANTS.map (GrabOp.ungrab kc)) = ∅ :=
  applyOps_ungrab_clears kc MOD_VARIANTS (by decide)

/-- C7: when a freshly resolved keycode differs from the grabbed one, the
rebind sequence releases all 8 modifier-mask combinations of the old
keycode before it acquires the 8 combinations of the new one: after every
prefix of the operation sequence the grabbed set mentions at most one
keycode (first only the old, then only the new), and when the sequence
finishes the grabbed set is exactly the 8 combinations of the new
keycode, with no combination of the previous keycode remaining. -/
theorem rebind_grab_invariant (oldKc newKc : Nat) (hne : oldKc ≠ newKc) :
    (∀ n : Nat,
      (∀ p ∈ applyOps (grabSet oldKc) ((rebindOps oldKc newKc).take n),
        p.1 = oldKc) ∨
      (∀ p ∈ applyOps (grabSet oldKc) ((rebindOps oldKc newKc).take n),
        p.1 = newKc)) ∧
    applyOps (grabSet oldKc) (rebindOps oldKc newKc) = grabSet newKc := by
  have hlen : (MOD_VARIANTS.map (GrabOp.ungrab oldKc)).length = 8 := by
    simp [ MOD_VARIANTS]
  constructor
  · intro n
    rw [rebindOps, List.take_append_eq_append_take]
    by_cases hn : n ≤ 8
    · left
      have h2 : n - (MOD_VARIANTS.map (GrabOp.ungrab oldKc)).length = 0 := by
        rw [hlen]
        omega
      rw [h2, List.take_zero, List.append_nil, ← List.map_take]
      intro p hp
      exact grabSet_fst oldKc p
        (applyOps_ungrab_subset oldKc (MOD_VARIANTS.take n) (grabSet oldKc) hp)
    · right
      have hfull : (MOD_VARIANTS.map (GrabOp.ungrab oldKc)).take n =
          MOD_VARIANTS.map (GrabOp.ungrab oldKc) :=
        List.take_of_length_le (by rw [hlen]; omega)
      rw [hfull, applyOps_append, ungrab_all, ← List.map_take,
        applyOps_grab_eq, Finset.empty_union]
      intro p hp
      rcases List.mem_map.mp (List.mem_toFinset.mp hp) with ⟨m, _, rfl⟩
      rfl
  · rw [rebindOps, applyOps_append, ungrab_all, applyOps_grab_eq,
      Finset.empty_union, grabSet]

/-- Witness for the C7 theorem at keycodes 10 and 20: the full sequence
moves the grab set from keycode 10's combinations to keycode 20's. -/
theorem rebind_grab_invariant_witness :
    applyOps (grabSet 10) (rebindOps 10 20) = grabSet 20 :=
  (rebind_grab_invariant 10 20 (by decide)).2

end Clicker
